import Mathlib

/-!
Verification of the call-ABI classification core of
`compiler/rustc_target/src/abi/call/mod.rs`.

The Rust source is shallowly embedded: machine sizes (`Size`) are counted in
whole bytes as in `rustc_abi::Size` (so `bits = 8 * bytes`), bit-flag sets are
`Nat` bitmasks with the same constants as the `bitflags!` block, fallible
operations (Rust panics / failed assertions) return `none`, and `Result<T, E>`
becomes `Except E T`.  Mutating methods on `ArgAbi` become functions returning
the updated value (or `none` for a panic).
-/

set_option autoImplicit false

namespace AbiCall

/-- `rustc_abi::Size`: a size in whole bytes ( `bits()` is `bytes * 8`). -/
structure Size where
  bytes : Nat
  deriving DecidableEq, Repr

/-- `Size::bits`. -/
def Size.bits (s : Size) : Nat := s.bytes * 8

/-- `Size::ZERO`. -/
def Size.ZERO : Size := ⟨0⟩

instance : Add Size := ⟨fun a b => ⟨a.bytes + b.bytes⟩⟩

/-- `Size::max` (via the derived `Ord`). -/
def Size.max (a b : Size) : Size := ⟨Nat.max a.bytes b.bytes⟩

@[simp] theorem Size.add_bytes (a b : Size) : (a + b).bytes = a.bytes + b.bytes := rfl

/-- `rustc_abi::Align`, reduced to its byte count. -/
structure Align where
  bytes : Nat
  deriving DecidableEq, Repr

/-- `u64::div_ceil` as used in `CastTarget::size`.  Rust panics when the
divisor is zero; callers in this development always supply a positive
divisor, matching the source where `rest.unit.size` is a register size. -/
def divCeil (a b : Nat) : Nat := a / b + (if a % b = 0 then 0 else 1)

/-- The `ArgAttribute` bitflags (`u8`), same bit assignments as the source. -/
def ArgAttribute : Type := Nat

def ArgAttribute.NoAlias : ArgAttribute := 1 <<< 1
def ArgAttribute.NoCapture : ArgAttribute := 1 <<< 2
def ArgAttribute.NonNull : ArgAttribute := 1 <<< 3
def ArgAttribute.ReadOnly : ArgAttribute := 1 <<< 4
def ArgAttribute.InReg : ArgAttribute := 1 <<< 5
def ArgAttribute.NoUndef : ArgAttribute := 1 <<< 6

instance : DecidableEq ArgAttribute := fun a b => inferInstanceAs (Decidable (Eq (α := Nat) a b))

instance : Repr ArgAttribute := inferInstanceAs (Repr Nat)

/-- `ArgAttribute::default()`: the empty flag set. -/
def ArgAttribute.default : ArgAttribute := (0 : Nat)

/-- Bitwise union, i.e. `|` on the flags. -/
def ArgAttribute.union (a b : ArgAttribute) : ArgAttribute := Nat.lor a b

/-- `bitflags`' `contains`: all bits of `b` are present in `a`. -/
def ArgAttribute.containsFlags (a b : ArgAttribute) : Bool := Nat.land a b == b

/-- `ArgExtension`: sign/zero extension request for small integers. -/
inductive ArgExtension where
  | None
  | Zext
  | Sext
  deriving DecidableEq, Repr

/-- `ArgAttributes`: the compact LLVM-attribute record. -/
structure ArgAttributes where
  regular : ArgAttribute
  arg_ext : ArgExtension
  pointee_size : Size
  pointee_align : Option Align
  deriving DecidableEq, Repr

/-- `ArgAttributes::new`. -/
def ArgAttributes.new : ArgAttributes :=
  { regular := ArgAttribute.default
    arg_ext := ArgExtension.None
    pointee_size := Size.ZERO
    pointee_align := none }

/-- `ArgAttributes::ext`: sets the extension kind; the source asserts that no
conflicting extension is already present (assertion failure ↦ `none`). -/
def ArgAttributes.ext (a : ArgAttributes) (e : ArgExtension) : Option ArgAttributes :=
  if a.arg_ext = ArgExtension.None ∨ a.arg_ext = e then
    some { a with arg_ext := e }
  else
    none

/-- `ArgAttributes::set`. -/
def ArgAttributes.set (a : ArgAttributes) (attr : ArgAttribute) : ArgAttributes :=
  { a with regular := a.regular.union attr }

/-- `ArgAttributes::contains`. -/
def ArgAttributes.contains (a : ArgAttributes) (attr : ArgAttribute) : Bool :=
  a.regular.containsFlags attr

/-- `ArgAttributes::eq_abi`: only the `InReg` bit and the extension kind are
ABI-affecting. -/
def ArgAttributes.eq_abi (a other : ArgAttributes) : Bool :=
  if a.contains ArgAttribute.InReg ≠ other.contains ArgAttribute.InReg then
    false
  else if a.arg_ext ≠ other.arg_ext then
    false
  else
    true

/-- `RegKind`. -/
inductive RegKind where
  | Integer
  | Float
  | Vector
  deriving DecidableEq, Repr

/-- `Reg`: one hardware register description. -/
structure Reg where
  kind : RegKind
  size : Size
  deriving DecidableEq, Repr

/-- `Reg::i32()`. -/
def Reg.i32 : Reg := { kind := RegKind.Integer, size := ⟨4⟩ }

/-- `Reg::i64()`. -/
def Reg.i64 : Reg := { kind := RegKind.Integer, size := ⟨8⟩ }

/-- `Reg::f32()`. -/
def Reg.f32 : Reg := { kind := RegKind.Float, size := ⟨4⟩ }

/-- `Reg::f64()`. -/
def Reg.f64 : Reg := { kind := RegKind.Float, size := ⟨8⟩ }

/-- The target data layout: the register-alignment table plus the few other
pieces of `TargetDataLayout` this module reads. -/
structure DataLayout where
  i1_align : Align
  i8_align : Align
  i16_align : Align
  i32_align : Align
  i64_align : Align
  i128_align : Align
  f32_align : Align
  f64_align : Align
  aggregate_align : Align
  pointer_size : Size
  pointer_align : Align
  vector_align : Size → Align

/-- `Reg::align`: table lookup by kind and bit width; the unmatched widths hit
`panic!` in the source (↦ `none`). -/
def Reg.align (r : Reg) (dl : DataLayout) : Option Align :=
  match r.kind with
  | RegKind.Integer =>
    if r.size.bits = 1 then some dl.i1_align
    else if 2 ≤ r.size.bits ∧ r.size.bits ≤ 8 then some dl.i8_align
    else if 9 ≤ r.size.bits ∧ r.size.bits ≤ 16 then some dl.i16_align
    else if 17 ≤ r.size.bits ∧ r.size.bits ≤ 32 then some dl.i32_align
    else if 33 ≤ r.size.bits ∧ r.size.bits ≤ 64 then some dl.i64_align
    else if 65 ≤ r.size.bits ∧ r.size.bits ≤ 128 then some dl.i128_align
    else none
  | RegKind.Float =>
    if r.size.bits = 32 then some dl.f32_align
    else if r.size.bits = 64 then some dl.f64_align
    else none
  | RegKind.Vector => some (dl.vector_align r.size)

/-- `Uniform`: one or more `unit` registers covering `total` bytes. -/
structure Uniform where
  unit : Reg
  total : Size
  force_array : Bool
  deriving DecidableEq, Repr

/-- `impl From<Reg> for Uniform`. -/
def Uniform.fromReg (unit : Reg) : Uniform :=
  { unit := unit, total := unit.size, force_array := false }

/-- `CastTarget`: a fixed prefix of up to 8 registers plus a repeated tail.
The source field named after the leading register array (`[Option<Reg>; 8]`)
is embedded as the `front` list of its 8 slots (the word itself is a Lean
keyword). -/
structure CastTarget where
  front : List (Option Reg)
  rest : Uniform
  attrs : ArgAttributes
  deriving DecidableEq, Repr

/-- `CastTarget::size`: the leading registers laid out in sequence, then the
tail rounded up to whole `rest.unit` chunks. -/
def CastTarget.size (ct : CastTarget) : Size :=
  let front_size : Size :=
    (ct.front.filterMap (fun x => x.map (fun reg => reg.size))).foldl (· + ·) Size.ZERO
  let rest_size : Size :=
    ⟨ct.rest.unit.size.bytes * divCeil ct.rest.total.bytes ct.rest.unit.size.bytes⟩
  front_size + rest_size

/-- `CastTarget::eq_abi`. -/
def CastTarget.eq_abi (a other : CastTarget) : Bool :=
  decide (a.front = other.front) && decide (a.rest = other.rest)
    && a.attrs.eq_abi other.attrs

/-- `PassMode`: how one argument or return value is passed. -/
inductive PassMode where
  | Ignore
  | Direct (attrs : ArgAttributes)
  | Pair (a : ArgAttributes) (b : ArgAttributes)
  | Cast (pad_i32 : Bool) (cast : CastTarget)
  | Indirect (attrs : ArgAttributes) (meta_attrs : Option ArgAttributes) (on_stack : Bool)
  deriving DecidableEq, Repr

/-- `PassMode::eq_abi`. -/
def PassMode.eq_abi : PassMode → PassMode → Bool
  | PassMode.Ignore, PassMode.Ignore => true
  | PassMode.Direct a1, PassMode.Direct a2 => a1.eq_abi a2
  | PassMode.Pair a1 b1, PassMode.Pair a2 b2 => a1.eq_abi a2 && b1.eq_abi b2
  | PassMode.Cast pad1 c1, PassMode.Cast pad2 c2 => c1.eq_abi c2 && pad1 == pad2
  | PassMode.Indirect a1 none s1, PassMode.Indirect a2 none s2 =>
    a1.eq_abi a2 && s1 == s2
  | PassMode.Indirect a1 (some e1) s1, PassMode.Indirect a2 (some e2) s2 =>
    a1.eq_abi a2 && e1.eq_abi e2 && s1 == s2
  | _, _ => false

/-- `HomogeneousAggregate`: successful outcome of the analyzer. -/
inductive HomogeneousAggregate where
  | Homogeneous (reg : Reg)
  | NoData
  deriving DecidableEq, Repr

/-- The `Heterogeneous` error marker. -/
inductive Heterogeneous where
  | mk
  deriving DecidableEq, Repr

/-- `HomogeneousAggregate::merge`. -/
def HomogeneousAggregate.merge :
    HomogeneousAggregate → HomogeneousAggregate →
      Except Heterogeneous HomogeneousAggregate
  | x, HomogeneousAggregate.NoData => Except.ok x
  | HomogeneousAggregate.NoData, x => Except.ok x
  | HomogeneousAggregate.Homogeneous a, HomogeneousAggregate.Homogeneous b =>
    if a ≠ b then Except.error Heterogeneous.mk
    else Except.ok (HomogeneousAggregate.Homogeneous a)

/-- `rustc_abi::Integer`: the fixed integer widths. -/
inductive IntegerTy where
  | I8
  | I16
  | I32
  | I64
  | I128
  deriving DecidableEq, Repr

/-- `Integer::size`. -/
def IntegerTy.size : IntegerTy → Size
  | IntegerTy.I8 => ⟨1⟩
  | IntegerTy.I16 => ⟨2⟩
  | IntegerTy.I32 => ⟨4⟩
  | IntegerTy.I64 => ⟨8⟩
  | IntegerTy.I128 => ⟨16⟩

/-- `rustc_abi::Primitive`: the primitive of a scalar (integers carry their
signedness, as matched by `abi::Int(i, signed)`). -/
inductive Primitive where
  | Int (i : IntegerTy) (signed : Bool)
  | Pointer
  | F16
  | F32
  | F64
  | F128
  deriving DecidableEq, Repr

/-- `Primitive::size` relative to the data layout. -/
def Primitive.size (p : Primitive) (dl : DataLayout) : Size :=
  match p with
  | Primitive.Int i _ => i.size
  | Primitive.Pointer => dl.pointer_size
  | Primitive.F16 => ⟨2⟩
  | Primitive.F32 => ⟨4⟩
  | Primitive.F64 => ⟨8⟩
  | Primitive.F128 => ⟨16⟩

/-- `Primitive::align` relative to the data layout (only the entries this
module can reach; `F16`/`F128` alignment is modelled by the float table's
neighbours). -/
def Primitive.align (p : Primitive) (dl : DataLayout) : Align :=
  match p with
  | Primitive.Int IntegerTy.I8 _ => dl.i8_align
  | Primitive.Int IntegerTy.I16 _ => dl.i16_align
  | Primitive.Int IntegerTy.I32 _ => dl.i32_align
  | Primitive.Int IntegerTy.I64 _ => dl.i64_align
  | Primitive.Int IntegerTy.I128 _ => dl.i128_align
  | Primitive.Pointer => dl.pointer_align
  | Primitive.F16 => dl.f32_align
  | Primitive.F32 => dl.f32_align
  | Primitive.F64 => dl.f64_align
  | Primitive.F128 => dl.f64_align

/-- `Abi` (the layout's top shape): scalars are reduced to their `Primitive`,
which is everything `homogeneous_aggregate` and `ArgAbi::new` inspect. -/
inductive AbiData where
  | Uninhabited
  | Scalar (s : Primitive)
  | ScalarPair (a : Primitive) (b : Primitive)
  | Vector
  | Aggregate (sized : Bool)
  deriving DecidableEq, Repr

mutual

/-- `TyAndLayout`: one type's layout, with sub-layouts attached in place of
the `Ty`-interface callbacks (`field`, `for_variant`).  `variants = none`
embeds `Variants::Single`; `variants = some vs` embeds `Variants::Multiple`
with `vs` the per-variant layouts. -/
inductive TyAndLayout where
  | mk (abi : AbiData) (fields : FieldsShape) (variants : Option (List TyAndLayout))
      (size : Size) (align : Align)

/-- `FieldsShape`, with each field's sub-layout attached: `Array` keeps the
element layout, `Union` its member layouts (all at offset 0), `Arbitrary` the
(offset, layout) pairs. -/
inductive FieldsShape where
  | Primitive
  | Array (count : Nat) (elem : TyAndLayout)
  | Union (members : List TyAndLayout)
  | Arbitrary (fields : List (Size × TyAndLayout))

end

/-- The layout's `abi` field. -/
def TyAndLayout.abi : TyAndLayout → AbiData
  | TyAndLayout.mk a _ _ _ _ => a

/-- The layout's `fields` field. -/
def TyAndLayout.fields : TyAndLayout → FieldsShape
  | TyAndLayout.mk _ f _ _ _ => f

/-- The layout's `variants` field. -/
def TyAndLayout.variants : TyAndLayout → Option (List TyAndLayout)
  | TyAndLayout.mk _ _ v _ _ => v

/-- The layout's `size` field. -/
def TyAndLayout.size : TyAndLayout → Size
  | TyAndLayout.mk _ _ _ s _ => s

/-- The layout's ABI alignment (`align.abi`). -/
def TyAndLayout.align : TyAndLayout → Align
  | TyAndLayout.mk _ _ _ _ a => a

/-- Modelled from the spec: the layout provider's zero-sized-type predicate
(`rustc_abi`'s `is_zst`, not under `src/`): scalars, scalar pairs and vectors
are never ZSTs; uninhabited and sized aggregates are ZSTs when their size is
zero (unsized aggregates never are). -/
def TyAndLayout.is_zst (l : TyAndLayout) : Bool :=
  match l.abi with
  | AbiData.Scalar _ => false
  | AbiData.ScalarPair _ _ => false
  | AbiData.Vector => false
  | AbiData.Uninhabited => l.size.bytes == 0
  | AbiData.Aggregate sized => sized && l.size.bytes == 0

/-- Modelled from the spec: the layout provider's one-byte-zero-sized-field
predicate (`rustc_abi`'s `is_1zst`, not under `src/`): a ZST whose alignment
is one byte. -/
def TyAndLayout.is_1zst (l : TyAndLayout) : Bool :=
  l.is_zst && l.align.bytes == 1

/-- Modelled from the spec: `is_unsized` (from `rustc_abi`, not under `src/`):
only an `Aggregate { sized: false }` layout is unsized. -/
def TyAndLayout.is_unsized (l : TyAndLayout) : Bool :=
  match l.abi with
  | AbiData.Aggregate sized => !sized
  | _ => false

/-- The final no-trailing-padding check of `homogeneous_aggregate`: the
accumulated total must equal the declared size exactly, a `Homogeneous`
result must cover a nonzero total and a `NoData` result a zero one (the two
`assert`s ↦ `none`). -/
def homogeneousAggregateFinish (result : HomogeneousAggregate) (total size : Size) :
    Option (Except Heterogeneous HomogeneousAggregate) :=
  if total ≠ size then some (Except.error Heterogeneous.mk)
  else
    match result with
    | HomogeneousAggregate.Homogeneous _ =>
      if total = Size.ZERO then none else some (Except.ok result)
    | HomogeneousAggregate.NoData =>
      if total ≠ Size.ZERO then none else some (Except.ok result)

/-- The tail of the `ScalarPair`/sized-`Aggregate` arm after the variant
walk: propagate panic (`none`) and `Heterogeneous`, else run the final
check. -/
def homogAfterVariants
    (r : Option (Except Heterogeneous (HomogeneousAggregate × Size))) (size : Size) :
    Option (Except Heterogeneous HomogeneousAggregate) :=
  match r with
  | none => none
  | some (Except.error e) => some (Except.error e)
  | some (Except.ok (result, total)) => homogeneousAggregateFinish result total size

/-- The scalar-primitive-to-register-kind map of the `Abi::Scalar` arm of
`homogeneous_aggregate`: integer/pointer primitives are `Integer` registers,
floating primitives are `Float` registers. -/
def Primitive.regKind : Primitive → RegKind
  | Primitive.Int _ _ => RegKind.Integer
  | Primitive.Pointer => RegKind.Integer
  | Primitive.F16 => RegKind.Float
  | Primitive.F32 => RegKind.Float
  | Primitive.F64 => RegKind.Float
  | Primitive.F128 => RegKind.Float

mutual

/-- `TyAndLayout::homogeneous_aggregate`.  `none` is a panicked assertion
(`assert!`/`unreachable!` in the source); `some (Except.error _)` is the
`Heterogeneous` outcome; `some (Except.ok _)` the successful classification. -/
def homogeneousAggregate : TyAndLayout →
    Option (Except Heterogeneous HomogeneousAggregate)
  | l@(TyAndLayout.mk abi fields variants size _align) =>
    match abi with
    | AbiData.Uninhabited => some (Except.error Heterogeneous.mk)
    | AbiData.Scalar s =>
      some (Except.ok (HomogeneousAggregate.Homogeneous
        { kind := Primitive.regKind s, size := size }))
    | AbiData.Vector =>
      if l.is_zst then none
      else some (Except.ok (HomogeneousAggregate.Homogeneous
        { kind := RegKind.Vector, size := size }))
    | AbiData.ScalarPair _ _ =>
      homogeneousAggregateFieldsCheck fields variants size
    | AbiData.Aggregate true =>
      homogeneousAggregateFieldsCheck fields variants size
    | AbiData.Aggregate false => some (Except.error Heterogeneous.mk)
termination_by l => (sizeOf l, 2)

/-- The `ScalarPair`/sized-`Aggregate` arm of `homogeneous_aggregate`: the
field walk over the layout itself, the variant walk, and the final
no-trailing-padding check with its two assertions.  Takes the pieces of the
layout that arm reads (`fields`, `variants`, `size`). -/
def homogeneousAggregateFieldsCheck (fields : FieldsShape)
    (variants : Option (List TyAndLayout)) (size : Size) :
    Option (Except Heterogeneous HomogeneousAggregate) :=
  homogAfterFields (fromFieldsAt fields size Size.ZERO) variants size
termination_by (sizeOf fields + sizeOf variants, 1)
decreasing_by
  all_goals
    apply Prod.Lex.left
    first
      | omega
      | (cases variants <;> cases fields <;> simp_arith)

/-- The continuation of the `ScalarPair`/sized-`Aggregate` arm once the
layout's own field walk has finished: `Variants::Single` goes straight to the
final check, `Variants::Multiple` first merges every variant in. -/
def homogAfterFields
    (r : Option (Except Heterogeneous (HomogeneousAggregate × Size)))
    (variants : Option (List TyAndLayout)) (size : Size) :
    Option (Except Heterogeneous HomogeneousAggregate) :=
  match r with
  | none => none
  | some (Except.error e) => some (Except.error e)
  | some (Except.ok (result0, total0)) =>
    match variants with
    | none => homogeneousAggregateFinish result0 total0 size
    | some vs => homogAfterVariants (walkVariants vs total0 result0 total0) size
termination_by (sizeOf variants, 0)
decreasing_by
  all_goals
    apply Prod.Lex.left
    simp_arith

/-- The source's inner `from_fields_at` closure, taking the pieces of the
layout it reads (`layout.fields` and `layout.size`) plus the starting
offset. -/
def fromFieldsAt (fields : FieldsShape) (size : Size) (start : Size) :
    Option (Except Heterogeneous (HomogeneousAggregate × Size)) :=
  match fields with
  | FieldsShape.Primitive => none
  | FieldsShape.Array count elem =>
    if start ≠ Size.ZERO then none
    else if count > 0 then
      match homogeneousAggregate elem with
      | none => none
      | some (Except.error e) => some (Except.error e)
      | some (Except.ok r) => some (Except.ok (r, size))
    else some (Except.ok (HomogeneousAggregate.NoData, size))
  | FieldsShape.Union members =>
    walkUnionFields members HomogeneousAggregate.NoData start
  | FieldsShape.Arbitrary fs =>
    walkFields fs HomogeneousAggregate.NoData start
termination_by (sizeOf fields, 0)

/-- The field loop of `from_fields_at` for a non-union (`Arbitrary`) shape:
1-ZST fields are skipped, every other field must sit exactly at the running
total, results are merged and sizes accumulated. -/
def walkFields (fs : List (Size × TyAndLayout)) (result : HomogeneousAggregate)
    (total : Size) : Option (Except Heterogeneous (HomogeneousAggregate × Size)) :=
  match fs with
  | [] => some (Except.ok (result, total))
  | (off, f) :: rest =>
    if f.is_1zst then walkFields rest result total
    else if total ≠ off then some (Except.error Heterogeneous.mk)
    else
      match homogeneousAggregate f with
      | none => none
      | some (Except.error e) => some (Except.error e)
      | some (Except.ok r) =>
        match result.merge r with
        | Except.error e => some (Except.error e)
        | Except.ok result2 => walkFields rest result2 (total + f.size)
termination_by (sizeOf fs, 0)

/-- The field loop of `from_fields_at` for a union: offsets are not checked
(every member starts at offset 0) and the running total takes the maximum
member size. -/
def walkUnionFields (fs : List TyAndLayout) (result : HomogeneousAggregate)
    (total : Size) : Option (Except Heterogeneous (HomogeneousAggregate × Size)) :=
  match fs with
  | [] => some (Except.ok (result, total))
  | f :: rest =>
    if f.is_1zst then walkUnionFields rest result total
    else
      match homogeneousAggregate f with
      | none => none
      | some (Except.error e) => some (Except.error e)
      | some (Except.ok r) =>
        match result.merge r with
        | Except.error e => some (Except.error e)
        | Except.ok result2 => walkUnionFields rest result2 (total.max f.size)
termination_by (sizeOf fs, 0)

/-- The `Variants::Multiple` loop: each variant is analyzed by
`from_fields_at` with the post-discriminant starting offset, results are
merged, and the total takes the per-variant maximum. -/
def walkVariants (vs : List TyAndLayout) (variant_start : Size)
    (result : HomogeneousAggregate) (total : Size) :
    Option (Except Heterogeneous (HomogeneousAggregate × Size)) :=
  match vs with
  | [] => some (Except.ok (result, total))
  | TyAndLayout.mk _ vfields _ vsize _ :: rest =>
    match fromFieldsAt vfields vsize variant_start with
    | none => none
    | some (Except.error e) => some (Except.error e)
    | some (Except.ok (variant_result, variant_total)) =>
      match result.merge variant_result with
      | Except.error e => some (Except.error e)
      | Except.ok result2 =>
        walkVariants rest variant_start result2 (total.max variant_total)
termination_by (sizeOf vs, 1)

end

/-- `ArgAbi`: one argument/return value's layout and current passing mode. -/
structure ArgAbi where
  layout : TyAndLayout
  mode : PassMode

/-- `Size::align_to`: round the size up to a multiple of the alignment. -/
def Size.align_to (s : Size) (a : Align) : Size :=
  ⟨(s.bytes + (a.bytes - 1)) / a.bytes * a.bytes⟩

/-- `ArgAbi::indirect_pass_mode`: the default `Indirect` classification of a
layout — synthesized attributes, pointee size/alignment from the layout, and
metadata attributes exactly when the layout is unsized. -/
def indirect_pass_mode (layout : TyAndLayout) : PassMode :=
  let attrs0 :=
    (((ArgAttributes.new.set ArgAttribute.NoAlias).set
      ArgAttribute.NoCapture).set ArgAttribute.NonNull).set ArgAttribute.NoUndef
  let attrs :=
    { attrs0 with pointee_size := layout.size, pointee_align := some layout.align }
  let meta_attrs := if layout.is_unsized then some ArgAttributes.new else none
  PassMode.Indirect attrs meta_attrs false

/-- `ArgAbi::new`: the default ABI for a layout, given the caller-supplied
per-scalar attribute generator. -/
def ArgAbi.new (dl : DataLayout) (layout : TyAndLayout)
    (scalar_attrs : TyAndLayout → Primitive → Size → ArgAttributes) : ArgAbi :=
  let mode :=
    match layout.abi with
    | AbiData.Uninhabited => PassMode.Ignore
    | AbiData.Scalar scalar => PassMode.Direct (scalar_attrs layout scalar Size.ZERO)
    | AbiData.ScalarPair a b =>
      PassMode.Pair (scalar_attrs layout a Size.ZERO)
        (scalar_attrs layout b ((a.size dl).align_to (b.align dl)))
    | AbiData.Vector => PassMode.Direct ArgAttributes.new
    | AbiData.Aggregate _ => indirect_pass_mode layout
  { layout := layout, mode := mode }

/-- `ArgAbi::make_direct_deprecated` (panic ↦ `none`). -/
def ArgAbi.make_direct_deprecated (a : ArgAbi) : Option ArgAbi :=
  match a.mode with
  | PassMode.Indirect _ _ _ => some { a with mode := PassMode.Direct ArgAttributes.new }
  | PassMode.Ignore => some a
  | PassMode.Direct _ => some a
  | PassMode.Pair _ _ => some a
  | PassMode.Cast _ _ => none

/-- `ArgAbi::make_indirect` (panic ↦ `none`). -/
def ArgAbi.make_indirect (a : ArgAbi) : Option ArgAbi :=
  match a.mode with
  | PassMode.Direct _ => some { a with mode := indirect_pass_mode a.layout }
  | PassMode.Pair _ _ => some { a with mode := indirect_pass_mode a.layout }
  | PassMode.Indirect _ _ false => some a
  | _ => none

/-- `ArgAbi::make_indirect_byval` (failed `assert!`/`debug_assert!`/panic ↦
`none`). -/
def ArgAbi.make_indirect_byval (a : ArgAbi) (byval_align : Option Align) : Option ArgAbi :=
  if a.layout.is_unsized then none
  else
    match a.make_indirect with
    | none => none
    | some a2 =>
      match a2.mode with
      | PassMode.Indirect attrs meta_attrs _ =>
        match byval_align with
        | none => some { a2 with mode := PassMode.Indirect attrs meta_attrs true }
        | some al =>
          if 4 ≤ al.bytes then
            some { a2 with mode :=
              PassMode.Indirect { attrs with pointee_align := some al } meta_attrs true }
          else none
      | _ => none

/-- `ArgAbi::extend_integer_width_to` (failed assertion in
`ArgAttributes::ext` ↦ `none`). -/
def ArgAbi.extend_integer_width_to (a : ArgAbi) (bits : Nat) : Option ArgAbi :=
  match a.layout.abi with
  | AbiData.Scalar (Primitive.Int i signed) =>
    if i.size.bits < bits then
      match a.mode with
      | PassMode.Direct attrs =>
        match attrs.ext (if signed then ArgExtension.Sext else ArgExtension.Zext) with
        | none => none
        | some attrs2 => some { a with mode := PassMode.Direct attrs2 }
      | _ => some a
    else some a
  | _ => some a

/-- `ArgAbi::cast_to`. -/
def ArgAbi.cast_to (a : ArgAbi) (target : CastTarget) : ArgAbi :=
  { a with mode := PassMode.Cast false target }

/-- `ArgAbi::cast_to_and_pad_i32`. -/
def ArgAbi.cast_to_and_pad_i32 (a : ArgAbi) (target : CastTarget) (pad_i32 : Bool) : ArgAbi :=
  { a with mode := PassMode.Cast pad_i32 target }

/-- `Conv`. -/
inductive RiscvInterruptKind where
  | Machine
  | Supervisor
  deriving DecidableEq, Repr

/-- The calling conventions of the `Conv` enum. -/
inductive Conv where
  | C
  | Rust
  | Cold
  | PreserveMost
  | PreserveAll
  | ArmAapcs
  | CCmseNonSecureCall
  | Msp430Intr
  | PtxKernel
  | X86Fastcall
  | X86Intr
  | X86Stdcall
  | X86ThisCall
  | X86VectorCall
  | X86_64SysV
  | X86_64Win64
  | AvrInterrupt
  | AvrNonBlockingInterrupt
  | RiscvInterrupt (kind : RiscvInterruptKind)
  deriving DecidableEq, Repr

/-- Modelled from the spec: `spec::abi::Abi` (defined in
`rustc_target/src/spec/abi.rs`, not under `src/`) — the requested "foreign"
convention.  Only the variants the dispatcher inspects are distinguished; the
remaining vocabulary is collapsed into `Other`. -/
inductive SpecAbi where
  | C (unwind : Bool)
  | Rust
  | X86Interrupt
  | Fastcall (unwind : Bool)
  | Vectorcall (unwind : Bool)
  | SysV64 (unwind : Bool)
  | Win64 (unwind : Bool)
  | PtxKernel
  | Wasm
  | Other (name : String)
  deriving DecidableEq, Repr

/-- The pieces of the target description the dispatcher reads. -/
structure TargetSpec where
  arch : String
  is_like_windows : Bool
  is_like_osx : Bool
  adjust_abi : SpecAbi → Bool → SpecAbi

/-- `FnAbi`: the classification of one call signature. -/
structure FnAbi where
  args : List ArgAbi
  ret : ArgAbi
  c_variadic : Bool
  fixed_count : Nat
  conv : Conv
  can_unwind : Bool

/-- `AdjustForForeignAbiError`: the dispatcher's single typed error. -/
inductive AdjustForForeignAbiError where
  | Unsupported (arch : String) (abi : SpecAbi)
  deriving DecidableEq, Repr

/-- `x86::Flavor`. -/
inductive X86Flavor where
  | General
  | FastcallOrVectorcall
  deriving DecidableEq, Repr

/-- `aarch64::AbiKind`. -/
inductive AArch64AbiKind where
  | AAPCS
  | DarwinPCS
  | Win64
  deriving DecidableEq, Repr

/-- Modelled from the spec: the per-architecture rule modules (`aarch64.rs`,
`x86_64.rs`, … — not under `src/`).  Per the spec each module's
`compute_abi_info` is a pure total function over the `FnAbi`, so they are
abstracted as a record of such functions, over which the dispatcher theorems
quantify. -/
structure ArchRules where
  x86 : X86Flavor → FnAbi → FnAbi
  x86_64 : FnAbi → FnAbi
  x86_win64 : FnAbi → FnAbi
  aarch64 : AArch64AbiKind → FnAbi → FnAbi
  amdgpu : FnAbi → FnAbi
  arm : FnAbi → FnAbi
  avr : FnAbi → FnAbi
  loongarch : FnAbi → FnAbi
  m68k : FnAbi → FnAbi
  csky : FnAbi → FnAbi
  mips : FnAbi → FnAbi
  mips64 : FnAbi → FnAbi
  powerpc : FnAbi → FnAbi
  powerpc64 : FnAbi → FnAbi
  s390x : FnAbi → FnAbi
  msp430 : FnAbi → FnAbi
  sparc : FnAbi → FnAbi
  sparc64 : FnAbi → FnAbi
  nvptx64_kernel : FnAbi → FnAbi
  nvptx64 : FnAbi → FnAbi
  hexagon : FnAbi → FnAbi
  riscv : FnAbi → FnAbi
  wasm_wasmabi : FnAbi → FnAbi
  wasm_cabi : FnAbi → FnAbi
  bpf : FnAbi → FnAbi

/-- `FnAbi::adjust_for_foreign_abi`: the convention pre-pass followed by the
architecture dispatch (`none` = panic inside `make_indirect_byval` on the
pre-pass; `some` = the source's `Result`). -/
def FnAbi.adjust_for_foreign_abi (rules : ArchRules) (ts : TargetSpec) (fa : FnAbi)
    (abi : SpecAbi) : Option (Except AdjustForForeignAbiError FnAbi) :=
  if abi = SpecAbi.X86Interrupt then
    match fa.args with
    | [] => some (Except.ok fa)
    | arg :: rest =>
      match arg.make_indirect_byval none with
      | none => none
      | some arg2 => some (Except.ok { fa with args := arg2 :: rest })
  else
    match ts.arch with
    | "x86" =>
      let flavor :=
        match abi with
        | SpecAbi.Fastcall _ => X86Flavor.FastcallOrVectorcall
        | SpecAbi.Vectorcall _ => X86Flavor.FastcallOrVectorcall
        | _ => X86Flavor.General
      some (Except.ok (rules.x86 flavor fa))
    | "x86_64" =>
      match abi with
      | SpecAbi.SysV64 _ => some (Except.ok (rules.x86_64 fa))
      | SpecAbi.Win64 _ => some (Except.ok (rules.x86_win64 fa))
      | _ =>
        if ts.is_like_windows then some (Except.ok (rules.x86_win64 fa))
        else some (Except.ok (rules.x86_64 fa))
    | "aarch64" =>
      let kind :=
        if ts.is_like_osx then AArch64AbiKind.DarwinPCS
        else if ts.is_like_windows then AArch64AbiKind.Win64
        else AArch64AbiKind.AAPCS
      some (Except.ok (rules.aarch64 kind fa))
    | "arm64ec" =>
      let kind :=
        if ts.is_like_osx then AArch64AbiKind.DarwinPCS
        else if ts.is_like_windows then AArch64AbiKind.Win64
        else AArch64AbiKind.AAPCS
      some (Except.ok (rules.aarch64 kind fa))
    | "amdgpu" => some (Except.ok (rules.amdgpu fa))
    | "arm" => some (Except.ok (rules.arm fa))
    | "avr" => some (Except.ok (rules.avr fa))
    | "loongarch64" => some (Except.ok (rules.loongarch fa))
    | "m68k" => some (Except.ok (rules.m68k fa))
    | "csky" => some (Except.ok (rules.csky fa))
    | "mips" => some (Except.ok (rules.mips fa))
    | "mips32r6" => some (Except.ok (rules.mips fa))
    | "mips64" => some (Except.ok (rules.mips64 fa))
    | "mips64r6" => some (Except.ok (rules.mips64 fa))
    | "powerpc" => some (Except.ok (rules.powerpc fa))
    | "powerpc64" => some (Except.ok (rules.powerpc64 fa))
    | "s390x" => some (Except.ok (rules.s390x fa))
    | "msp430" => some (Except.ok (rules.msp430 fa))
    | "sparc" => some (Except.ok (rules.sparc fa))
    | "sparc64" => some (Except.ok (rules.sparc64 fa))
    | "nvptx64" =>
      if ts.adjust_abi abi fa.c_variadic = SpecAbi.PtxKernel then
        some (Except.ok (rules.nvptx64_kernel fa))
      else some (Except.ok (rules.nvptx64 fa))
    | "hexagon" => some (Except.ok (rules.hexagon fa))
    | "riscv32" => some (Except.ok (rules.riscv fa))
    | "riscv64" => some (Except.ok (rules.riscv fa))
    | "wasm32" =>
      if ts.adjust_abi abi fa.c_variadic = SpecAbi.Wasm then
        some (Except.ok (rules.wasm_wasmabi fa))
      else some (Except.ok (rules.wasm_cabi fa))
    | "wasm64" =>
      if ts.adjust_abi abi fa.c_variadic = SpecAbi.Wasm then
        some (Except.ok (rules.wasm_wasmabi fa))
      else some (Except.ok (rules.wasm_cabi fa))
    | "bpf" => some (Except.ok (rules.bpf fa))
    | arch => some (Except.error (AdjustForForeignAbiError.Unsupported arch abi))

/-- The architecture identifiers of the dispatch table, in source order. -/
def archTable : List String :=
  ["x86", "x86_64", "aarch64", "arm64ec", "amdgpu", "arm", "avr", "loongarch64",
   "m68k", "csky", "mips", "mips32r6", "mips64", "mips64r6", "powerpc",
   "powerpc64", "s390x", "msp430", "sparc", "sparc64", "nvptx64", "hexagon",
   "riscv32", "riscv64", "wasm32", "wasm64", "bpf"]

/-! ### Spec-side formula and concrete test fixtures -/

/-- The size invariant as the spec words it: sum of the present leading
register sizes, plus `rest.unit.size` times the ceiling of
`rest.total / rest.unit.size`.  Stated independently of `CastTarget.size`
for the refinement comparison. -/
def castTargetSizeSpec (ct : CastTarget) : Size :=
  ⟨(ct.front.map (fun o =>
      match o with
      | some r => r.size.bytes
      | none => 0)).sum
    + ct.rest.unit.size.bytes
      * ((ct.rest.total.bytes + ct.rest.unit.size.bytes - 1) / ct.rest.unit.size.bytes)⟩

/-- The spec's worked example: prefix `[i64, i64]`, rest
`Uniform { unit: i32, total: 12 bytes }`. -/
def castExample : CastTarget :=
  { front := [some Reg.i64, some Reg.i64, none, none, none, none, none, none]
    rest := { unit := Reg.i32, total := ⟨12⟩, force_array := false }
    attrs := ArgAttributes.new }

/-- A standard 64-bit data layout for concrete witnesses. -/
def sampleDataLayout : DataLayout :=
  { i1_align := ⟨1⟩
    i8_align := ⟨1⟩
    i16_align := ⟨2⟩
    i32_align := ⟨4⟩
    i64_align := ⟨8⟩
    i128_align := ⟨16⟩
    f32_align := ⟨4⟩
    f64_align := ⟨8⟩
    aggregate_align := ⟨8⟩
    pointer_size := ⟨8⟩
    pointer_align := ⟨8⟩
    vector_align := fun s => ⟨s.bytes⟩ }

/-- The layout of a bare scalar: `Scalar` abi, `Primitive` field shape,
single variant. -/
def scalarLayout (p : Primitive) (size : Size) (align : Align) : TyAndLayout :=
  TyAndLayout.mk (AbiData.Scalar p) FieldsShape.Primitive none size align

/-- The layout of `f64`. -/
def f64Layout : TyAndLayout := scalarLayout Primitive.F64 ⟨8⟩ ⟨8⟩

/-- The layout of `i32`. -/
def i32Layout : TyAndLayout := scalarLayout (Primitive.Int IntegerTy.I32 true) ⟨4⟩ ⟨4⟩

/-- The layout of `i8`. -/
def i8Layout : TyAndLayout := scalarLayout (Primitive.Int IntegerTy.I8 true) ⟨1⟩ ⟨1⟩

/-- `n` consecutive `f64` fields starting at byte offset `t`. -/
def floatFieldsFrom (t : Nat) : Nat → List (Size × TyAndLayout)
  | 0 => []
  | n + 1 => (⟨t⟩, f64Layout) :: floatFieldsFrom (t + 8) n

/-- A packed struct of `n` `f64` fields: fields at offsets `0, 8, …`,
total size `8 * n`, no padding. -/
def floatStruct (n : Nat) : TyAndLayout :=
  TyAndLayout.mk (AbiData.Aggregate true)
    (FieldsShape.Arbitrary (floatFieldsFrom 0 n)) none ⟨8 * n⟩ ⟨8⟩

/-- The float struct with `g` bytes of padding inserted after field `k`
(fields `0 … k` packed, fields `k+1 …` shifted by `g`, size grown by `g`). -/
def paddedFloatStruct (n k g : Nat) : TyAndLayout :=
  TyAndLayout.mk (AbiData.Aggregate true)
    (FieldsShape.Arbitrary
      (floatFieldsFrom 0 (k + 1) ++ floatFieldsFrom (8 * (k + 1) + g) (n - (k + 1))))
    none ⟨8 * n + g⟩ ⟨8⟩

/-- The packed float struct with field `k` replaced by a scalar of primitive
`p` and size `s` (subsequent fields re-packed behind it). -/
def oddFieldStruct (n k : Nat) (p : Primitive) (s : Nat) (al : Align) : TyAndLayout :=
  TyAndLayout.mk (AbiData.Aggregate true)
    (FieldsShape.Arbitrary
      (floatFieldsFrom 0 k
        ++ (⟨8 * k⟩, scalarLayout p ⟨s⟩ al) :: floatFieldsFrom (8 * k + s) (n - (k + 1))))
    none ⟨8 * (n - 1) + s⟩ ⟨8⟩

/-- A sized one-field aggregate layout (an 8-byte struct). -/
def smallAggLayout : TyAndLayout :=
  TyAndLayout.mk (AbiData.Aggregate true)
    (FieldsShape.Arbitrary [(Size.ZERO, f64Layout)]) none ⟨8⟩ ⟨8⟩

/-- An unsized aggregate layout (e.g. a slice tail). -/
def unsizedAggLayout : TyAndLayout :=
  TyAndLayout.mk (AbiData.Aggregate false)
    (FieldsShape.Arbitrary []) none ⟨0⟩ ⟨1⟩

/-- A concrete rule-module record (each module the identity recipe). -/
def sampleRules : ArchRules :=
  { x86 := fun _ fa => fa
    x86_64 := id
    x86_win64 := id
    aarch64 := fun _ fa => fa
    amdgpu := id
    arm := id
    avr := id
    loongarch := id
    m68k := id
    csky := id
    mips := id
    mips64 := id
    powerpc := id
    powerpc64 := id
    s390x := id
    msp430 := id
    sparc := id
    sparc64 := id
    nvptx64_kernel := id
    nvptx64 := id
    hexagon := id
    riscv := id
    wasm_wasmabi := id
    wasm_cabi := id
    bpf := id }

/-- A concrete target description with an architecture identifier outside
the dispatch table. -/
def unknownArchSpec : TargetSpec :=
  { arch := "zzz"
    is_like_windows := false
    is_like_osx := false
    adjust_abi := fun abi _ => abi }

/-- A concrete `FnAbi` with no arguments and an ignored return. -/
def sampleFnAbi : FnAbi :=
  { args := []
    ret := { layout := unsizedAggLayout, mode := PassMode.Ignore }
    c_variadic := false
    fixed_count := 0
    conv := Conv.C
    can_unwind := false }

/-! ### Helper lemmas -/

theorem Size.eq_of_bytes {a b : Size} (h : a.bytes = b.bytes) : a = b := by
  cases a
  cases b
  cases h
  rfl

theorem foldl_size_filterMap (l : List (Option Reg)) (acc : Size) :
    ((l.filterMap (fun x => x.map (fun reg => reg.size))).foldl (· + ·) acc).bytes
      = acc.bytes
        + (l.map (fun o =>
            match o with
            | some r => r.size.bytes
            | none => 0)).sum := by
  induction l generalizing acc with
  | nil => simp
  | cons h t ih =>
    cases h with
    | none => simp [List.filterMap_cons, ih]
    | some r =>
      simp [List.filterMap_cons, ih]
      omega

theorem divCeil_eq_ceil (a b : Nat) (hb : 0 < b) : divCeil a b = (a + b - 1) / b := by
  have hm := Nat.mod_lt a hb
  unfold divCeil
  rcases Nat.eq_zero_or_pos (a % b) with h | h
  · have ha : a + b - 1 = b * (a / b) + (b - 1) := by
      have := Nat.div_add_mod a b
      omega
    rw [ha, Nat.mul_add_div hb, Nat.div_eq_of_lt (show b - 1 < b by omega), h]
    simp
  · have ha : a + b - 1 = b * (a / b + 1) + (a % b - 1) := by
      have h1 := Nat.div_add_mod a b
      have h2 : b * (a / b + 1) = b * (a / b) + b := by ring
      omega
    rw [ha, Nat.mul_add_div hb, Nat.div_eq_of_lt (show a % b - 1 < b by omega),
      if_neg (show ¬ a % b = 0 by omega)]

theorem Size.mk_add_mk (a b : Nat) : (Size.mk a + Size.mk b) = Size.mk (a + b) := rfl

theorem homog_f64 : homogeneousAggregate f64Layout =
    some (Except.ok (HomogeneousAggregate.Homogeneous Reg.f64)) := by
  simp [f64Layout, scalarLayout, homogeneousAggregate, Primitive.regKind, Reg.f64]

theorem is_1zst_scalarLayout (p : Primitive) (s : Size) (al : Align) :
    (scalarLayout p s al).is_1zst = false := by
  simp [scalarLayout, TyAndLayout.is_1zst, TyAndLayout.is_zst, TyAndLayout.abi,
    TyAndLayout.align]

theorem homog_scalarLayout (p : Primitive) (s : Size) (al : Align) :
    homogeneousAggregate (scalarLayout p s al) =
      some (Except.ok (HomogeneousAggregate.Homogeneous ⟨p.regKind, s⟩)) := by
  simp [scalarLayout, homogeneousAggregate]

theorem is_1zst_f64 : f64Layout.is_1zst = false := is_1zst_scalarLayout _ _ _

theorem f64Layout_size : f64Layout.size = ⟨8⟩ := rfl

theorem scalarLayout_size (p : Primitive) (s : Size) (al : Align) :
    (scalarLayout p s al).size = s := rfl

theorem walkFields_f64_step (t : Nat) (rest : List (Size × TyAndLayout)) :
    walkFields ((⟨t⟩, f64Layout) :: rest) (HomogeneousAggregate.Homogeneous Reg.f64) ⟨t⟩
      = walkFields rest (HomogeneousAggregate.Homogeneous Reg.f64) ⟨t + 8⟩ := by
  simp [walkFields, is_1zst_f64, homog_f64, HomogeneousAggregate.merge,
    f64Layout_size, Size.mk_add_mk]

theorem walkFields_f64_first_step (t : Nat) (rest : List (Size × TyAndLayout)) :
    walkFields ((⟨t⟩, f64Layout) :: rest) HomogeneousAggregate.NoData ⟨t⟩
      = walkFields rest (HomogeneousAggregate.Homogeneous Reg.f64) ⟨t + 8⟩ := by
  simp [walkFields, is_1zst_f64, homog_f64, HomogeneousAggregate.merge,
    f64Layout_size, Size.mk_add_mk]

theorem walkFields_float_seq (n : Nat) :
    ∀ (t : Nat) (rest : List (Size × TyAndLayout)),
      walkFields (floatFieldsFrom t n ++ rest)
          (HomogeneousAggregate.Homogeneous Reg.f64) ⟨t⟩
        = walkFields rest (HomogeneousAggregate.Homogeneous Reg.f64) ⟨t + 8 * n⟩ := by
  induction n with
  | zero =>
    intro t rest
    simp [floatFieldsFrom]
  | succ m ih =>
    intro t rest
    have harith : t + 8 * (m + 1) = (t + 8) + 8 * m := by ring
    rw [harith, ← ih (t + 8) rest]
    rw [show floatFieldsFrom t (m + 1) = (⟨t⟩, f64Layout) :: floatFieldsFrom (t + 8) m
      from rfl]
    rw [List.cons_append]
    exact walkFields_f64_step t (floatFieldsFrom (t + 8) m ++ rest)

theorem fromFieldsAt_floats (n : Nat) (hn : 0 < n) (rest : List (Size × TyAndLayout))
    (size : Size) :
    fromFieldsAt (FieldsShape.Arbitrary (floatFieldsFrom 0 n ++ rest)) size Size.ZERO
      = walkFields rest (HomogeneousAggregate.Homogeneous Reg.f64) ⟨8 * n⟩ := by
  obtain ⟨m, rfl⟩ : ∃ m, n = m + 1 := ⟨n - 1, by omega⟩
  rw [show floatFieldsFrom 0 (m + 1) = (⟨0⟩, f64Layout) :: floatFieldsFrom 8 m from rfl]
  rw [List.cons_append]
  simp only [fromFieldsAt]
  rw [show (Size.ZERO : Size) = ⟨0⟩ from rfl]
  rw [walkFields_f64_first_step 0 (floatFieldsFrom 8 m ++ rest)]
  rw [show (⟨0 + 8⟩ : Size) = ⟨8⟩ from by norm_num]
  rw [walkFields_float_seq m 8 rest]
  congr 1
  simp [Size.mk.injEq]
  ring

theorem floatStruct_homogeneous (n : Nat) (hn : 0 < n) :
    homogeneousAggregate (floatStruct n) =
      some (Except.ok (HomogeneousAggregate.Homogeneous Reg.f64)) := by
  simp only [floatStruct, homogeneousAggregate, homogeneousAggregateFieldsCheck]
  rw [show floatFieldsFrom 0 n = floatFieldsFrom 0 n ++ [] from (List.append_nil _).symm]
  rw [fromFieldsAt_floats n hn [] ⟨8 * n⟩]
  simp only [walkFields, homogAfterFields, homogeneousAggregateFinish]
  rw [if_neg (show ¬ (⟨8 * n⟩ : Size) ≠ ⟨8 * n⟩ from by simp)]
  rw [if_neg (show ¬ (⟨8 * n⟩ : Size) = Size.ZERO from by
    simp [Size.ZERO, Size.mk.injEq]; omega)]

theorem paddedFloatStruct_heterogeneous (n k g : Nat) (hk : k < n) (hg : 0 < g) :
    homogeneousAggregate (paddedFloatStruct n k g) =
      some (Except.error Heterogeneous.mk) := by
  simp only [paddedFloatStruct, homogeneousAggregate, homogeneousAggregateFieldsCheck]
  rw [fromFieldsAt_floats (k + 1) (Nat.succ_pos k) _ _]
  by_cases hlast : k + 1 = n
  · rw [show n - (k + 1) = 0 from by omega]
    simp only [floatFieldsFrom, walkFields, homogAfterFields, homogeneousAggregateFinish]
    rw [if_pos (show (⟨8 * (k + 1)⟩ : Size) ≠ ⟨8 * n + g⟩ from by
      simp only [ne_eq, Size.mk.injEq]; omega)]
  · rw [show n - (k + 1) = (n - (k + 1) - 1) + 1 from by omega]
    simp only [floatFieldsFrom, walkFields, is_1zst_f64, Bool.false_eq_true, if_false]
    rw [if_pos (show (⟨8 * (k + 1)⟩ : Size) ≠ ⟨8 * (k + 1) + g⟩ from by
      simp only [ne_eq, Size.mk.injEq]; omega)]
    simp [homogAfterFields]

theorem oddFieldStruct_heterogeneous (n k : Nat) (p : Primitive) (s : Nat) (al : Align)
    (hn : 2 ≤ n) (hk : k < n)
    (hne : Reg.mk (Primitive.regKind p) ⟨s⟩ ≠ Reg.f64) :
    homogeneousAggregate (oddFieldStruct n k p s al) =
      some (Except.error Heterogeneous.mk) := by
  simp only [oddFieldStruct, homogeneousAggregate, homogeneousAggregateFieldsCheck]
  cases k with
  | zero =>
    rw [show n - (0 + 1) = (n - 2) + 1 from by omega]
    simp only [floatFieldsFrom, List.nil_append, fromFieldsAt]
    simp only [walkFields, is_1zst_scalarLayout, Bool.false_eq_true, if_false,
      homog_scalarLayout, HomogeneousAggregate.merge, scalarLayout_size, is_1zst_f64]
    rw [if_neg (show ¬ (Size.ZERO : Size) ≠ ⟨8 * 0⟩ from by
      simp [Size.ZERO, Size.mk.injEq])]
    rw [if_neg (show ¬ (Size.ZERO + (⟨s⟩ : Size)) ≠ ⟨8 * 0 + s⟩ from by
      simp [Size.ZERO, Size.mk_add_mk, Size.mk.injEq])]
    rw [homog_f64]
    simp [homogAfterFields, HomogeneousAggregate.merge, hne]
  | succ kp =>
    rw [fromFieldsAt_floats (kp + 1) (Nat.succ_pos kp) _ _]
    simp only [walkFields, is_1zst_scalarLayout, Bool.false_eq_true, if_false,
      homog_scalarLayout, HomogeneousAggregate.merge]
    rw [if_neg (show ¬ (⟨8 * (kp + 1)⟩ : Size) ≠ ⟨8 * (kp + 1)⟩ from by simp)]
    rw [if_pos (show Reg.f64 ≠ Reg.mk (Primitive.regKind p) ⟨s⟩ from Ne.symm hne)]
    simp [homogAfterFields]

theorem ArgAttributes.eq_abi_iff (a b : ArgAttributes) :
    a.eq_abi b = true ↔
      (a.contains ArgAttribute.InReg = b.contains ArgAttribute.InReg ∧
        a.arg_ext = b.arg_ext) := by
  unfold ArgAttributes.eq_abi
  split_ifs with h1 h2 <;> simp_all

/-! ### Claims -/

/-- C3: for every `CastTarget` (with a register-sized, hence nonzero, tail
unit) `size()` equals the sum of the present leading register sizes plus
`rest.unit.size` times the ceiling of `rest.total / rest.unit.size`; in
particular the `[i64, i64]` / `Uniform{i32, 12 bytes}` example measures 28
bytes. -/
theorem c3_castTarget_size_formula (ct : CastTarget)
    (h : 0 < ct.rest.unit.size.bytes) :
    ct.size = castTargetSizeSpec ct ∧ castExample.size = ⟨28⟩ := by
  constructor
  · apply Size.eq_of_bytes
    simp only [CastTarget.size, castTargetSizeSpec, Size.add_bytes]
    rw [foldl_size_filterMap, divCeil_eq_ceil _ _ h]
    simp [Size.ZERO]
  · rfl

/-- Witness for C3 at the spec's own worked example. -/
theorem c3_castTarget_size_formula_witness :
    0 < castExample.rest.unit.size.bytes ∧
      (castExample.size = castTargetSizeSpec castExample ∧ castExample.size = ⟨28⟩) :=
  ⟨by decide, c3_castTarget_size_formula castExample (by decide)⟩

/-- C7: two `Direct` modes (and, component-wise, two `Pair` modes) are
ABI-equivalent exactly when their attribute sets agree on the `InReg` bit and
on the extension kind; no other attribute data enters `eq_abi`. -/
theorem c7_direct_pair_abi_equivalence :
    ∀ a1 a2 b1 b2 : ArgAttributes,
      ((PassMode.Direct a1).eq_abi (PassMode.Direct a2) = true ↔
        (a1.contains ArgAttribute.InReg = a2.contains ArgAttribute.InReg ∧
          a1.arg_ext = a2.arg_ext)) ∧
      ((PassMode.Pair a1 b1).eq_abi (PassMode.Pair a2 b2) = true ↔
        ((a1.contains ArgAttribute.InReg = a2.contains ArgAttribute.InReg ∧
            a1.arg_ext = a2.arg_ext) ∧
          (b1.contains ArgAttribute.InReg = b2.contains ArgAttribute.InReg ∧
            b1.arg_ext = b2.arg_ext))) := by
  intro a1 a2 b1 b2
  constructor
  · simp [PassMode.eq_abi, ArgAttributes.eq_abi_iff]
  · simp [PassMode.eq_abi, Bool.and_eq_true, ArgAttributes.eq_abi_iff]

/-- Witness for C7 at concrete attribute values. -/
theorem c7_direct_pair_abi_equivalence_witness :
    ((PassMode.Direct ArgAttributes.new).eq_abi (PassMode.Direct ArgAttributes.new) = true ↔
      (ArgAttributes.new.contains ArgAttribute.InReg =
          ArgAttributes.new.contains ArgAttribute.InReg ∧
        ArgAttributes.new.arg_ext = ArgAttributes.new.arg_ext)) :=
  (c7_direct_pair_abi_equivalence ArgAttributes.new ArgAttributes.new
    ArgAttributes.new ArgAttributes.new).1

/-- C10: when both `Indirect` modes carry metadata attributes, `eq_abi`
compares the two metadata attribute sets by the reduced rule (`InReg` bit and
extension kind) in addition to the main attributes and `on_stack` — not
merely their presence. -/
theorem c10_indirect_meta_attrs_compared :
    ∀ (a1 a2 e1 e2 : ArgAttributes) (s1 s2 : Bool),
      (PassMode.Indirect a1 (some e1) s1).eq_abi
          (PassMode.Indirect a2 (some e2) s2) = true ↔
        ((a1.contains ArgAttribute.InReg = a2.contains ArgAttribute.InReg ∧
            a1.arg_ext = a2.arg_ext) ∧
          (e1.contains ArgAttribute.InReg = e2.contains ArgAttribute.InReg ∧
            e1.arg_ext = e2.arg_ext) ∧
          s1 = s2) := by
  intro a1 a2 e1 e2 s1 s2
  simp [PassMode.eq_abi, Bool.and_eq_true, ArgAttributes.eq_abi_iff, and_assoc]

/-- Witness for C10: metadata attributes differing only in `InReg` defeat
equivalence of otherwise identical unsized `Indirect` modes. -/
theorem c10_indirect_meta_attrs_compared_witness :
    (PassMode.Indirect ArgAttributes.new
        (some (ArgAttributes.new.set ArgAttribute.InReg)) false).eq_abi
      (PassMode.Indirect ArgAttributes.new (some ArgAttributes.new) false) = true ↔
      ((ArgAttributes.new.contains ArgAttribute.InReg =
          ArgAttributes.new.contains ArgAttribute.InReg ∧
        ArgAttributes.new.arg_ext = ArgAttributes.new.arg_ext) ∧
        ((ArgAttributes.new.set ArgAttribute.InReg).contains ArgAttribute.InReg =
            ArgAttributes.new.contains ArgAttribute.InReg ∧
          (ArgAttributes.new.set ArgAttribute.InReg).arg_ext =
            ArgAttributes.new.arg_ext) ∧
        false = false) :=
  c10_indirect_meta_attrs_compared ArgAttributes.new ArgAttributes.new
    (ArgAttributes.new.set ArgAttribute.InReg) ArgAttributes.new false false

/-- C8 counterexample: a 24-bit (3-byte) integer register is *not* in the
claimed fixed width set `{8, 16, 32, 64, 128}`, yet `Reg::align` succeeds
(via the `17..=32` arm) instead of panicking. -/
theorem c8_counterexample_intermediate_width :
    (Reg.mk RegKind.Integer ⟨3⟩).align sampleDataLayout = some ⟨4⟩ := rfl

/-- C8 (amended): `Reg::align` succeeds for every integer width in the range
1–128 bits (the match arms are ranges, so intermediate widths like 24 bits
also succeed) and panics outside it; for floats it succeeds exactly at 32 and
64 bits. -/
theorem c8_reg_align_amended :
    ∀ (r : Reg) (dl : DataLayout),
      (r.kind = RegKind.Integer →
        ((r.align dl).isSome ↔ (1 ≤ r.size.bits ∧ r.size.bits ≤ 128))) ∧
      (r.kind = RegKind.Float →
        ((r.align dl).isSome ↔ (r.size.bits = 32 ∨ r.size.bits = 64))) := by
  intro r dl
  obtain ⟨k, s⟩ := r
  cases k <;>
    constructor <;>
      intro hk <;>
        simp_all [Reg.align] <;> split_ifs <;> simp_all <;> omega

/-- Witness for C8's amended statement at the 64-bit float register. -/
theorem c8_reg_align_amended_witness :
    ((Reg.mk RegKind.Float ⟨8⟩).align sampleDataLayout).isSome ↔
      ((Reg.mk RegKind.Float ⟨8⟩).size.bits = 32 ∨
        (Reg.mk RegKind.Float ⟨8⟩).size.bits = 64) :=
  (c8_reg_align_amended (Reg.mk RegKind.Float ⟨8⟩) sampleDataLayout).2 rfl

/-- The synthesized attribute record of the aggregate rule, written out: the
flag set is exactly `NoAlias ∪ NoCapture ∪ NonNull ∪ NoUndef`, no extension,
pointee size and alignment taken from the layout, metadata attributes exactly
for unsized layouts, never on the stack. -/
theorem indirect_pass_mode_eq (L : TyAndLayout) :
    indirect_pass_mode L = PassMode.Indirect
      { regular := ((ArgAttribute.NoAlias.union ArgAttribute.NoCapture).union
          ArgAttribute.NonNull).union ArgAttribute.NoUndef
        arg_ext := ArgExtension.None
        pointee_size := L.size
        pointee_align := some L.align }
      (if L.is_unsized then some ArgAttributes.new else none) false := by
  have h1 : (((ArgAttributes.new.set ArgAttribute.NoAlias).set
      ArgAttribute.NoCapture).set ArgAttribute.NonNull).set ArgAttribute.NoUndef =
      { regular := ((ArgAttribute.NoAlias.union ArgAttribute.NoCapture).union
          ArgAttribute.NonNull).union ArgAttribute.NoUndef
        arg_ext := ArgExtension.None
        pointee_size := Size.ZERO
        pointee_align := none } := by decide
  simp only [indirect_pass_mode, h1]

/-- C2: the default classification of every `Aggregate`-ABI layout is
`Indirect` with exactly the flags `NoAlias, NoCapture, NonNull, NoUndef`,
pointee size/alignment from the layout, metadata attributes (defaulted) iff
the layout is unsized, and `on_stack = false`. -/
theorem c2_aggregate_default_indirect :
    ∀ (dl : DataLayout) (layout : TyAndLayout) (sized : Bool)
      (sa : TyAndLayout → Primitive → Size → ArgAttributes),
      layout.abi = AbiData.Aggregate sized →
      (ArgAbi.new dl layout sa).mode = PassMode.Indirect
        { regular := ((ArgAttribute.NoAlias.union ArgAttribute.NoCapture).union
            ArgAttribute.NonNull).union ArgAttribute.NoUndef
          arg_ext := ArgExtension.None
          pointee_size := layout.size
          pointee_align := some layout.align }
        (if layout.is_unsized then some ArgAttributes.new else none) false := by
  intro dl layout sized sa h
  rw [← indirect_pass_mode_eq]
  obtain ⟨abi, fields, variants, size, align⟩ := layout
  simp only [TyAndLayout.abi] at h
  subst h
  simp [ArgAbi.new, TyAndLayout.abi]

/-- Witness for C2 at concrete sized and unsized aggregate layouts. -/
theorem c2_aggregate_default_indirect_witness :
    smallAggLayout.abi = AbiData.Aggregate true ∧
      (ArgAbi.new sampleDataLayout smallAggLayout
          (fun _ _ _ => ArgAttributes.new)).mode = PassMode.Indirect
        { regular := ((ArgAttribute.NoAlias.union ArgAttribute.NoCapture).union
            ArgAttribute.NonNull).union ArgAttribute.NoUndef
          arg_ext := ArgExtension.None
          pointee_size := smallAggLayout.size
          pointee_align := some smallAggLayout.align }
        (if smallAggLayout.is_unsized then some ArgAttributes.new else none) false :=
  ⟨rfl, c2_aggregate_default_indirect sampleDataLayout smallAggLayout true
    (fun _ _ _ => ArgAttributes.new) rfl⟩

/-- C5: `make_indirect` sends `Direct`/`Pair` to the recomputed default
`Indirect` classification of the current layout, is a no-op on an `Indirect`
mode that is not on the stack, and panics from `Ignore`, `Cast`, or an
on-stack `Indirect`. -/
theorem c5_make_indirect_transitions :
    ∀ a : ArgAbi,
      (∀ attrs, a.mode = PassMode.Direct attrs →
        a.make_indirect = some { a with mode := indirect_pass_mode a.layout }) ∧
      (∀ x y, a.mode = PassMode.Pair x y →
        a.make_indirect = some { a with mode := indirect_pass_mode a.layout }) ∧
      (∀ attrs meta_attrs, a.mode = PassMode.Indirect attrs meta_attrs false →
        a.make_indirect = some a) ∧
      (a.mode = PassMode.Ignore → a.make_indirect = none) ∧
      (∀ pad c, a.mode = PassMode.Cast pad c → a.make_indirect = none) ∧
      (∀ attrs meta_attrs, a.mode = PassMode.Indirect attrs meta_attrs true →
        a.make_indirect = none) := by
  intro a
  obtain ⟨L, m⟩ := a
  refine ⟨fun attrs h => ?_, fun x y h => ?_, fun attrs me h => ?_, fun h => ?_,
    fun pad c h => ?_, fun attrs me h => ?_⟩ <;>
    (simp only [] at h; subst h; simp [ArgAbi.make_indirect])

/-- Witness for C5: a `Direct`-mode argument over a scalar layout. -/
theorem c5_make_indirect_transitions_witness :
    (ArgAbi.mk i32Layout (PassMode.Direct ArgAttributes.new)).make_indirect =
      some { ArgAbi.mk i32Layout (PassMode.Direct ArgAttributes.new) with
        mode := indirect_pass_mode i32Layout } :=
  (c5_make_indirect_transitions
    (ArgAbi.mk i32Layout (PassMode.Direct ArgAttributes.new))).1 ArgAttributes.new rfl

/-- C6: `extend_integer_width_to(bits)` on a `Direct` integer scalar narrower
than `bits` sets `Sext` for signed and `Zext` for unsigned integers (when no
conflicting extension is present), is a no-op when the scalar is at least
`bits` wide, is idempotent, and is a fatal assertion failure when the
attributes already carry the conflicting extension kind. -/
theorem c6_extend_integer_width :
    ∀ (a : ArgAbi) (bits : Nat),
      (∀ i signed attrs,
        a.layout.abi = AbiData.Scalar (Primitive.Int i signed) →
        i.size.bits < bits →
        a.mode = PassMode.Direct attrs →
        (attrs.arg_ext = ArgExtension.None ∨
          attrs.arg_ext = (if signed then ArgExtension.Sext else ArgExtension.Zext)) →
        a.extend_integer_width_to bits = some { a with
          mode := PassMode.Direct { attrs with
            arg_ext := if signed then ArgExtension.Sext else ArgExtension.Zext } }) ∧
      (∀ i signed, a.layout.abi = AbiData.Scalar (Primitive.Int i signed) →
        bits ≤ i.size.bits → a.extend_integer_width_to bits = some a) ∧
      ((a.extend_integer_width_to bits).bind
          (fun a2 => a2.extend_integer_width_to bits) = a.extend_integer_width_to bits) ∧
      (∀ i signed attrs,
        a.layout.abi = AbiData.Scalar (Primitive.Int i signed) →
        i.size.bits < bits →
        a.mode = PassMode.Direct attrs →
        attrs.arg_ext = (if signed then ArgExtension.Zext else ArgExtension.Sext) →
        a.extend_integer_width_to bits = none) := by
  intro a bits
  obtain ⟨⟨abi, fields, variants, size, align⟩, m⟩ := a
  refine ⟨?_, ?_, ?_, ?_⟩
  · intro i signed attrs habi hlt hm hext
    simp only [] at habi hm
    simp only [TyAndLayout.abi] at habi
    subst habi
    subst hm
    simp only [ArgAbi.extend_integer_width_to, TyAndLayout.abi, if_pos hlt,
      ArgAttributes.ext, if_pos hext]
  · intro i signed habi hge
    simp only [] at habi
    simp only [TyAndLayout.abi] at habi
    subst habi
    simp [ArgAbi.extend_integer_width_to, TyAndLayout.abi, Nat.not_lt.mpr hge]
  · cases abi with
    | Scalar p =>
      cases p with
      | Int i signed =>
        by_cases hlt : i.size.bits < bits
        · cases m with
          | Direct attrs =>
            simp only [ArgAbi.extend_integer_width_to, TyAndLayout.abi, if_pos hlt,
              ArgAttributes.ext]
            by_cases hc : attrs.arg_ext = ArgExtension.None ∨
              attrs.arg_ext = (if signed then ArgExtension.Sext else ArgExtension.Zext)
            · rw [if_pos hc]
              simp [ArgAbi.extend_integer_width_to, TyAndLayout.abi, hlt,
                ArgAttributes.ext]
            · rw [if_neg hc]
              rfl
          | Ignore =>
            simp [ArgAbi.extend_integer_width_to, TyAndLayout.abi, if_pos hlt]
          | Pair x y =>
            simp [ArgAbi.extend_integer_width_to, TyAndLayout.abi, if_pos hlt]
          | Cast pad c =>
            simp [ArgAbi.extend_integer_width_to, TyAndLayout.abi, if_pos hlt]
          | Indirect x y z =>
            simp [ArgAbi.extend_integer_width_to, TyAndLayout.abi, if_pos hlt]
        · simp [ArgAbi.extend_integer_width_to, TyAndLayout.abi, hlt]
      | Pointer => simp [ArgAbi.extend_integer_width_to, TyAndLayout.abi]
      | F16 => simp [ArgAbi.extend_integer_width_to, TyAndLayout.abi]
      | F32 => simp [ArgAbi.extend_integer_width_to, TyAndLayout.abi]
      | F64 => simp [ArgAbi.extend_integer_width_to, TyAndLayout.abi]
      | F128 => simp [ArgAbi.extend_integer_width_to, TyAndLayout.abi]
    | Uninhabited => simp [ArgAbi.extend_integer_width_to, TyAndLayout.abi]
    | ScalarPair x y => simp [ArgAbi.extend_integer_width_to, TyAndLayout.abi]
    | Vector => simp [ArgAbi.extend_integer_width_to, TyAndLayout.abi]
    | Aggregate sized => simp [ArgAbi.extend_integer_width_to, TyAndLayout.abi]
  · intro i signed attrs habi hlt hm hext
    simp only [] at habi hm
    simp only [TyAndLayout.abi] at habi
    subst habi
    subst hm
    simp only [ArgAbi.extend_integer_width_to, TyAndLayout.abi, if_pos hlt,
      ArgAttributes.ext]
    rw [if_neg]
    rintro (h | h) <;> rw [hext] at h <;> cases signed <;> simp_all

/-- Witness for C6: an 8-bit signed `Direct` scalar extended to 32 bits gets
`Sext`. -/
theorem c6_extend_integer_width_witness :
    (ArgAbi.mk i8Layout (PassMode.Direct ArgAttributes.new)).extend_integer_width_to 32 =
      some { ArgAbi.mk i8Layout (PassMode.Direct ArgAttributes.new) with
        mode := PassMode.Direct { ArgAttributes.new with
          arg_ext := if true then ArgExtension.Sext else ArgExtension.Zext } } :=
  (c6_extend_integer_width (ArgAbi.mk i8Layout (PassMode.Direct ArgAttributes.new))
    32).1 IntegerTy.I8 true ArgAttributes.new rfl (by decide) rfl (Or.inl rfl)

/-- C9: `make_indirect_byval` is a fatal assertion failure on every unsized
layout; on a sized `Direct`/`Pair` argument it produces the on-stack
`Indirect` mode, with the override alignment (asserted to be at least 4
bytes) replacing the layout-derived `pointee_align` when supplied. -/
theorem c9_make_indirect_byval_rules :
    ∀ (a : ArgAbi) (byval_align : Option Align),
      (a.layout.is_unsized = true → a.make_indirect_byval byval_align = none) ∧
      (a.layout.is_unsized = false →
        ((∃ attrs, a.mode = PassMode.Direct attrs) ∨
          (∃ x y, a.mode = PassMode.Pair x y)) →
        (∀ v, byval_align = some v → 4 ≤ v.bytes) →
        a.make_indirect_byval byval_align = some
          { layout := a.layout
            mode := PassMode.Indirect
              { regular := ((ArgAttribute.NoAlias.union ArgAttribute.NoCapture).union
                  ArgAttribute.NonNull).union ArgAttribute.NoUndef
                arg_ext := ArgExtension.None
                pointee_size := a.layout.size
                pointee_align := some (byval_align.getD a.layout.align) }
              none true }) ∧
      (a.layout.is_unsized = false →
        ((∃ attrs, a.mode = PassMode.Direct attrs) ∨
          (∃ x y, a.mode = PassMode.Pair x y)) →
        ∀ v, byval_align = some v → v.bytes < 4 →
        a.make_indirect_byval byval_align = none) := by
  intro a bal
  obtain ⟨L, m⟩ := a
  refine ⟨?_, ?_, ?_⟩
  · intro h
    simp only [] at h
    simp [ArgAbi.make_indirect_byval, h]
  · intro hs hmode hal
    simp only [] at hs hmode
    have hmk : (ArgAbi.mk L m).make_indirect =
        some (ArgAbi.mk L (indirect_pass_mode L)) := by
      rcases hmode with ⟨attrs, hm⟩ | ⟨x, y, hm⟩ <;>
        (subst hm; simp [ArgAbi.make_indirect])
    cases bal with
    | none =>
      simp [ArgAbi.make_indirect_byval, hs, hmk, indirect_pass_mode_eq, Option.getD]
    | some v =>
      have h4 := hal v rfl
      simp [ArgAbi.make_indirect_byval, hs, hmk, indirect_pass_mode_eq, h4, Option.getD]
  · intro hs hmode v hv hlt
    subst hv
    simp only [] at hs hmode
    have hmk : (ArgAbi.mk L m).make_indirect =
        some (ArgAbi.mk L (indirect_pass_mode L)) := by
      rcases hmode with ⟨attrs, hm⟩ | ⟨x, y, hm⟩ <;>
        (subst hm; simp [ArgAbi.make_indirect])
    simp [ArgAbi.make_indirect_byval, hs, hmk, indirect_pass_mode_eq,
      Nat.not_le.mpr hlt]

/-- Witness for C9: the unsized case fails, the sized `Direct` case with an
8-byte override succeeds on-stack. -/
theorem c9_make_indirect_byval_rules_witness :
    ((ArgAbi.mk unsizedAggLayout PassMode.Ignore).make_indirect_byval none = none) ∧
      ((ArgAbi.mk i32Layout (PassMode.Direct ArgAttributes.new)).make_indirect_byval
          (some ⟨8⟩) = some
        { layout := i32Layout
          mode := PassMode.Indirect
            { regular := ((ArgAttribute.NoAlias.union ArgAttribute.NoCapture).union
                ArgAttribute.NonNull).union ArgAttribute.NoUndef
              arg_ext := ArgExtension.None
              pointee_size := i32Layout.size
              pointee_align := some ((some (Align.mk 8)).getD i32Layout.align) }
            none true }) :=
  ⟨(c9_make_indirect_byval_rules (ArgAbi.mk unsizedAggLayout PassMode.Ignore) none).1 rfl,
    (c9_make_indirect_byval_rules
      (ArgAbi.mk i32Layout (PassMode.Direct ArgAttributes.new)) (some ⟨8⟩)).2.1 rfl
      (Or.inl ⟨ArgAttributes.new, rfl⟩) (fun v hv => by cases hv; decide)⟩

/-- C4 counterexample: with the `X86Interrupt` convention the pre-pass
short-circuits, so an architecture identifier outside the dispatch table
("zzz") still returns `Ok` rather than the `Unsupported` error the claim
demands for every call with an unknown architecture. -/
theorem c4_counterexample_x86interrupt_shortcircuit :
    unknownArchSpec.arch ∉ archTable ∧
      FnAbi.adjust_for_foreign_abi sampleRules unknownArchSpec sampleFnAbi
        SpecAbi.X86Interrupt = some (Except.ok sampleFnAbi) := by
  constructor
  · decide
  · rfl

/-- C4 (amended): when the requested convention is not the short-circuiting
`X86Interrupt` one, dispatching with an architecture identifier outside the
fixed table returns the typed `Unsupported` error carrying that identifier
and the convention, every identifier in the table returns `Ok`, and
`Unsupported` is the only error the dispatcher can return. -/
theorem c4_dispatch_amended :
    ∀ (rules : ArchRules) (ts : TargetSpec) (fa : FnAbi) (abi : SpecAbi),
      abi ≠ SpecAbi.X86Interrupt →
      ((ts.arch ∈ archTable → ∃ fa2,
          FnAbi.adjust_for_foreign_abi rules ts fa abi = some (Except.ok fa2)) ∧
        (ts.arch ∉ archTable →
          FnAbi.adjust_for_foreign_abi rules ts fa abi =
            some (Except.error (AdjustForForeignAbiError.Unsupported ts.arch abi))) ∧
        (∀ e, FnAbi.adjust_for_foreign_abi rules ts fa abi = some (Except.error e) →
          ts.arch ∉ archTable ∧
            e = AdjustForForeignAbiError.Unsupported ts.arch abi)) := by
  intro rules ts fa abi habi
  refine ⟨?_, ?_, ?_⟩
  · intro hmem
    unfold FnAbi.adjust_for_foreign_abi
    rw [if_neg habi]
    split
    all_goals try exact ⟨_, rfl⟩
    all_goals try (split <;> first | exact ⟨_, rfl⟩ | (split <;> exact ⟨_, rfl⟩))
    exfalso
    simp_all [archTable]
  · intro hmem
    unfold FnAbi.adjust_for_foreign_abi
    rw [if_neg habi]
    split
    all_goals try rfl
    all_goals
      exfalso
      apply hmem
      simp_all [archTable]
  · intro e he
    unfold FnAbi.adjust_for_foreign_abi at he
    rw [if_neg habi] at he
    revert he
    split
    all_goals intro he
    all_goals try (revert he; split <;> intro he)
    all_goals try (revert he; split <;> intro he)
    all_goals simp at he
    subst he
    constructor
    · intro hmem
      simp_all [archTable]
    · rfl

/-- Witness for C4's amended statement: the unknown architecture "zzz" under
the plain C convention yields the typed `Unsupported` error. -/
theorem c4_dispatch_amended_witness :
    FnAbi.adjust_for_foreign_abi sampleRules unknownArchSpec sampleFnAbi
        (SpecAbi.C false) =
      some (Except.error
        (AdjustForForeignAbiError.Unsupported unknownArchSpec.arch (SpecAbi.C false))) :=
  (c4_dispatch_amended sampleRules unknownArchSpec sampleFnAbi (SpecAbi.C false)
    (by decide)).2.1 (by decide)

/-- C1: a packed sized struct of `N > 0` identical `f64` fields at
consecutive offsets with no padding is classified
`Homogeneous(Reg{Float, 64 bits})`; inserting padding anywhere (after field
`k`, `g > 0` bytes), or replacing one field by a scalar whose register
differs in width or kind from the 64-bit float register (with at least one
`f64` field remaining), yields the `Heterogeneous` error. -/
theorem c1_homogeneous_float_aggregates :
    (∀ n, 0 < n → homogeneousAggregate (floatStruct n) =
        some (Except.ok (HomogeneousAggregate.Homogeneous Reg.f64))) ∧
      (∀ n k g, k < n → 0 < g → homogeneousAggregate (paddedFloatStruct n k g) =
        some (Except.error Heterogeneous.mk)) ∧
      (∀ n k p s al, 2 ≤ n → k < n →
        Reg.mk (Primitive.regKind p) ⟨s⟩ ≠ Reg.f64 →
        homogeneousAggregate (oddFieldStruct n k p s al) =
          some (Except.error Heterogeneous.mk)) :=
  ⟨floatStruct_homogeneous, paddedFloatStruct_heterogeneous,
    oddFieldStruct_heterogeneous⟩

/-- Witness for C1: three packed `f64` fields are homogeneous; 4 bytes of
padding after field 1 of three, or an `i64` in place of field 1 of three, are
heterogeneous. -/
theorem c1_homogeneous_float_aggregates_witness :
    (homogeneousAggregate (floatStruct 3) =
        some (Except.ok (HomogeneousAggregate.Homogeneous Reg.f64))) ∧
      (homogeneousAggregate (paddedFloatStruct 3 1 4) =
        some (Except.error Heterogeneous.mk)) ∧
      (homogeneousAggregate
          (oddFieldStruct 3 1 (Primitive.Int IntegerTy.I64 false) 8 ⟨8⟩) =
        some (Except.error Heterogeneous.mk)) :=
  ⟨c1_homogeneous_float_aggregates.1 3 (by decide),
    c1_homogeneous_float_aggregates.2.1 3 1 4 (by decide) (by decide),
    c1_homogeneous_float_aggregates.2.2 3 1 (Primitive.Int IntegerTy.I64 false) 8 ⟨8⟩
      (by decide) (by decide) (by decide)⟩

end AbiCall
